import Mathlib

/-!
# Verification of the Rossmann sales-forecast preprocessing pipeline

Shallow embedding of `src/api/rossmann/Rossmann.py` (class `Rossmann`:
`_data_cleaning`, `_feature_engineering`, `_data_preparation`, `preprocess`,
`get_prediction`) together with the request flow of `src/api/handler.py`
(`rossmann_predict`, which runs `preprocess` followed by `get_prediction`).

Conventions of the embedding:

* A record batch is a `List` of typed rows; pandas column assignments become
  row-wise functions, boolean-mask filtering becomes `List.filter`, and
  whole-column failures (parse errors, NaN-to-int casts, ...) become
  `Except PErr`.
* Dates are modelled by a year/month/day triple; `pd.to_datetime` with the
  "%Y-%m-%d" format is modelled as a validity check on the triple.  Calendar
  arithmetic is done on a day number (days since 1970-01-01, computed with
  the standard civil-calendar algorithm).
* `numpy` float truncation (`astype(int)`) is modelled with `Int.tdiv`
  (truncation toward zero) on exact rationals; the quantities so divided in
  the source are exact integer day counts divided by small constants, where
  double rounding cannot move the result across an integer boundary.
* The fitted artifacts (four scalers, the store-type label encoder, the
  model) are opaque objects loaded from pickles; they are modelled as
  function-valued fields of the `Rossmann` structure, exactly as they are
  opaque constructor arguments in the source.  Transcendental float
  operations (`np.sin`, `np.cos`, `np.expm1`) are likewise carried as
  function parameters of the structure; no claim depends on their values.
-/

/-! ## Calendar arithmetic -/

/-- Gregorian leap-year test. -/
def isLeap (y : Int) : Bool :=
  (y % 4 == 0 && y % 100 != 0) || (y % 400 == 0)

/-- Number of days of month `m` in year `y`. -/
def daysInMonth (y m : Int) : Int :=
  if m = 2 then (if isLeap y then 29 else 28)
  else if m = 4 ∨ m = 6 ∨ m = 9 ∨ m = 11 then 30
  else 31

/-- Number of days in year `y`. -/
def daysInYear (y : Int) : Int := if isLeap y then 366 else 365

/-- Day number of the civil date `y-m-d` counted from 1970-01-01 (day 0),
using the standard era-based algorithm with floor division. -/
def daysFromCivil (y m d : Int) : Int :=
  let y' := if m ≤ 2 then y - 1 else y
  let era := Int.fdiv y' 400
  let yoe := y' - era * 400
  let mp := Int.emod (m + 9) 12
  let doy := Int.fdiv (153 * mp + 2) 5 + d - 1
  let doe := yoe * 365 + Int.fdiv yoe 4 - Int.fdiv yoe 100 + doy
  era * 146097 + doe - 719468

/-- Day of week of a day number, with Monday = 0 ... Sunday = 6
(1970-01-01 was a Thursday). -/
def weekdayMon0 (rd : Int) : Int := (rd + 3) % 7

/-- A calendar date as it arrives in the request payload (the source parses
the string "YYYY-MM-DD"; the component triple is the parse result). -/
structure Ymd where
  y : Int
  m : Int
  d : Int
deriving DecidableEq, Repr

/-- Day number of a date. -/
def Ymd.toRD (x : Ymd) : Int := daysFromCivil x.y x.m x.d

/-- Validity of a component triple, i.e. success of the strict
`pd.to_datetime(..., format="%Y-%m-%d")` parse.  The year bounds model the
four-digit year of the format together with the nanosecond `Timestamp`
range of pandas (1678..2261). -/
def Ymd.valid (x : Ymd) : Bool :=
  1678 ≤ x.y && x.y ≤ 2261 && 1 ≤ x.m && x.m ≤ 12 && 1 ≤ x.d && x.d ≤ daysInMonth x.y x.m

/-- Number of ISO weeks of a year (52 or 53). -/
def isoWeeksInYear (y : Int) : Int :=
  let jan1dow := weekdayMon0 (daysFromCivil y 1 1)
  if jan1dow = 3 ∨ (isLeap y ∧ jan1dow = 2) then 53 else 52

/-- ISO-8601 week number of a date, as produced by
`Series.dt.isocalendar().week`. -/
def isoWeek (x : Ymd) : Int :=
  let rd := x.toRD
  let ord := rd - daysFromCivil x.y 1 1 + 1
  let dow := weekdayMon0 rd + 1
  let w := Int.fdiv (ord - dow + 10) 7
  if w < 1 then isoWeeksInYear (x.y - 1)
  else if w > isoWeeksInYear x.y then 1
  else w

/-- Day number of the first Monday of year `y`. -/
def firstMondayOfYear (y : Int) : Int :=
  let jan1 := daysFromCivil y 1 1
  jan1 + (-(jan1 + 3)) % 7

/-! ## Data model -/

/-- Failure modes of a pipeline run (each models a concrete Python
exception raised by pandas / sklearn / numpy during the run; the source
itself defines no error classes of its own). -/
inductive PErr where
  /-- `pd.to_datetime(df.Date, format="%Y-%m-%d")` fails to parse. -/
  | dateParse
  /-- `cat.rename_categories` is given a renaming that makes the category
  set non-unique. -/
  | duplicateCategories
  /-- `pd.to_datetime` fails on the assembled CompetitionSince string. -/
  | competitionSinceParse
  /-- `pd.to_datetime(..., format="%Y-%W-%w")` fails on the assembled
  PromoSince string. -/
  | promoSinceParse
  /-- `DataFrame.apply(..., axis=1)` on an empty frame returns a
  `DataFrame`, and assigning that to the single column IsPromo raises
  `ValueError`. -/
  | emptyApply
  /-- `astype(int)` on a column that contains NaN raises. -/
  | naToInt
  /-- The fitted store-type `LabelEncoder` rejects an unseen label. -/
  | unseenStoreType
  /-- Column selection `df[cols]` references a missing column. -/
  | keyError (col : String)
  /-- Assigning the raw prediction vector back onto the frame fails
  because its length does not match the row count. -/
  | lengthMismatch
  /-- A heap reference does not point at a frame. -/
  | badRef
deriving DecidableEq, Repr

/-- One raw input record, after JSON decoding (`pd.DataFrame(test_json)` in
`handler.py`).  Nullable numeric fields are `Option ℚ` (pandas holds them as
float columns with NaN); `Open` is the nullable 0/1 flag; `Date` is the
parsed component triple of the "YYYY-MM-DD" string. -/
structure RawRow where
  Store : Int
  DayOfWeek : Int
  Date : Ymd
  Open : Option Int
  Promo : Int
  StateHoliday : String
  SchoolHoliday : Int
  StoreType : String
  Assortment : String
  CompetitionDistance : Option ℚ
  CompetitionOpenSinceMonth : Option ℚ
  CompetitionOpenSinceYear : Option ℚ
  Promo2 : Int
  Promo2SinceWeek : Option ℚ
  Promo2SinceYear : Option ℚ
  PromoInterval : Option String
deriving DecidableEq, Repr

/-- A row after `_data_cleaning`: values imputed, numeric fields coerced to
int, categorical codes renamed.  `Assortment` is `none` when the value fell
outside the fixed category list (pandas NaN); 0/1 flags are already the
`astype(bool)` images coded 0/1. -/
structure CleanRow where
  Store : Int
  DayOfWeek : Int
  Date : Ymd
  Promo : Int
  SchoolHoliday : Int
  Promo2 : Int
  StateHoliday : String
  StoreType : String
  Assortment : Option String
  CompetitionDistance : Int
  CompetitionOpenSinceMonth : Int
  CompetitionOpenSinceYear : Int
  Promo2SinceWeek : Int
  Promo2SinceYear : Int
  PromoInterval : String
deriving DecidableEq, Repr

/-- A row after `_feature_engineering` (auxiliary columns MonthMap,
PromoInterval, CompetitionSince, PromoSince already dropped). -/
structure FeatRow where
  Store : Int
  DayOfWeek : Int
  Date : Ymd
  Promo : Int
  SchoolHoliday : Int
  Promo2 : Int
  StateHoliday : String
  StoreType : String
  Assortment : Option String
  CompetitionDistance : Int
  CompetitionOpenSinceMonth : Int
  CompetitionOpenSinceYear : Int
  Promo2SinceWeek : Int
  Promo2SinceYear : Int
  Year : Int
  Month : Int
  Day : Int
  WeekOfYear : Int
  CompetitionTimeMonth : Int
  PromoTimeWeek : Int
  IsPromo : Int
deriving DecidableEq, Repr

/-- The `Rossmann` object: the preloaded model and preprocessing artifacts
of `Rossmann.__init__`.  Scalers, the label encoder, the model and the
numpy transcendentals are opaque pre-fitted objects in the source and are
therefore function-valued fields here.  `sinPi x` and `cosPi x` stand for
the floats `np.sin (pi * x)` and `np.cos (pi * x)`. -/
structure Rossmann where
  competition_distance_scaler : ℚ → ℚ
  competition_time_month_scaler : ℚ → ℚ
  promo_time_week_scaler : ℚ → ℚ
  year_scaler : ℚ → ℚ
  store_type_encoder : String → Option Int
  features_selected : List String
  predict : List (List ℚ) → List ℚ
  expm1 : ℚ → ℚ
  sinPi : ℚ → ℚ
  cosPi : ℚ → ℚ

/-- Truncation toward zero of an exact rational: the value of
`astype(int)` on a float column. -/
def ratTrunc (q : ℚ) : Int := Int.tdiv q.num (q.den : Int)

/-- Decidable equality of `Except` results, used to evaluate the pipeline
on concrete batches. -/
instance instDecEqExcept {ε α : Type _} [DecidableEq ε] [DecidableEq α] :
    DecidableEq (Except ε α) := fun a b =>
  match a, b with
  | .error e, .error e' =>
    if h : e = e' then .isTrue (h ▸ rfl) else .isFalse (fun hc => h (by injection hc))
  | .error _, .ok _ => .isFalse (fun hc => Except.noConfusion hc)
  | .ok _, .error _ => .isFalse (fun hc => Except.noConfusion hc)
  | .ok x, .ok y =>
    if h : x = y then .isTrue (h ▸ rfl) else .isFalse (fun hc => h (by injection hc))

/-! ## Effectful row maps

A column-wise pandas operation that can raise maps each row independently
and aborts the whole frame on the first failure; `mapExcept` is that
semantics on lists. -/

/-- Map an `Except`-valued function over a list, failing if any element
fails. -/
def mapExcept (f : α → Except PErr β) : List α → Except PErr (List β)
  | [] => .ok []
  | a :: as =>
    match f a with
    | .error e => .error e
    | .ok b =>
      match mapExcept f as with
      | .error e => .error e
      | .ok bs => .ok (b :: bs)

theorem mapExcept_ok_length {f : α → Except PErr β} {l : List α} {out : List β}
    (h : mapExcept f l = .ok out) : out.length = l.length := by
  induction l generalizing out with
  | nil => simp [mapExcept] at h; simp [← h]
  | cons a as ih =>
    simp only [mapExcept] at h
    cases hfa : f a with
    | error e => rw [hfa] at h; exact absurd h (by simp)
    | ok b =>
      rw [hfa] at h
      cases hrest : mapExcept f as with
      | error e => rw [hrest] at h; exact absurd h (by simp)
      | ok bs =>
        rw [hrest] at h
        simp only [Except.ok.injEq] at h
        subst h
        simp [ih hrest]

theorem mapExcept_ok_get {f : α → Except PErr β} {l : List α} {out : List β}
    (h : mapExcept f l = .ok out) :
    ∀ i (hi : i < l.length) (ho : i < out.length),
      f (l.get ⟨i, hi⟩) = .ok (out.get ⟨i, ho⟩) := by
  induction l generalizing out with
  | nil => intro i hi; simp at hi
  | cons a as ih =>
    simp only [mapExcept] at h
    cases hfa : f a with
    | error e => rw [hfa] at h; exact absurd h (by simp)
    | ok b =>
      rw [hfa] at h
      cases hrest : mapExcept f as with
      | error e => rw [hrest] at h; exact absurd h (by simp)
      | ok bs =>
        rw [hrest] at h
        simp only [Except.ok.injEq] at h
        subst h
        intro i hi ho
        match i with
        | 0 => simpa using hfa
        | n + 1 =>
          simp only [List.get_cons_succ]
          exact ih hrest n (by simpa using hi) (by simpa using ho)

theorem mapExcept_ok_mem {f : α → Except PErr β} {l : List α} {out : List β}
    (h : mapExcept f l = .ok out) :
    ∀ a ∈ l, ∃ b, f a = .ok b := by
  induction l generalizing out with
  | nil => simp
  | cons x as ih =>
    simp only [mapExcept] at h
    cases hfa : f x with
    | error e => rw [hfa] at h; exact absurd h (by simp)
    | ok b =>
      rw [hfa] at h
      cases hrest : mapExcept f as with
      | error e => rw [hrest] at h; exact absurd h (by simp)
      | ok bs =>
        intro a ha
        rcases List.mem_cons.mp ha with rfl | ha
        · exact ⟨b, hfa⟩
        · exact ih hrest a ha

/-! ## Stage 1: `_data_cleaning` (Rossmann.py lines 63-141) -/

/-- The boolean mask `df["Open"] == 1` of line 79 (NaN compares unequal). -/
def openEq1 (r : RawRow) : Bool := r.Open == some 1

/-- The StateHoliday renaming dictionary of lines 117-121.
`cat.rename_categories` leaves categories that are not dictionary keys
unchanged, so an unrecognized code is passed through as itself. -/
def renameStateHoliday (c : String) : String :=
  if c = "a" then "public"
  else if c = "b" then "easter"
  else if c = "c" then "christmas"
  else if c = "0" then "none"
  else c

/-- The Assortment renaming dictionary of lines 127-131; again, codes that
are not dictionary keys pass through unchanged. -/
def renameAssortment (c : String) : String :=
  if c = "a" then "basic"
  else if c = "b" then "extra"
  else if c = "c" then "extended"
  else c

/-- The fixed ordered category list forced on Assortment at lines 132-140. -/
def assortmentCategories : List String := ["basic", "extra", "extended"]

/-- `pd.Categorical(values, categories=assortmentCategories)`: a value
outside the fixed list becomes NaN (`none`). -/
def setAssortmentCategories (c : String) : Option String :=
  if c ∈ assortmentCategories then some c else none

/-- Cleaning of one surviving row: the date parse of line 82, the
imputations of lines 86-91, the integer coercions of lines 94-98, the
boolean coercions of lines 107-109 and the category renamings of lines
111-140, all of which act element-wise. -/
def cleanRow (r : RawRow) : Except PErr CleanRow :=
  if r.Date.valid then
    .ok {
      Store := r.Store
      DayOfWeek := r.DayOfWeek
      Date := r.Date
      Promo := if r.Promo ≠ 0 then 1 else 0
      SchoolHoliday := if r.SchoolHoliday ≠ 0 then 1 else 0
      Promo2 := if r.Promo2 ≠ 0 then 1 else 0
      StateHoliday := renameStateHoliday r.StateHoliday
      StoreType := r.StoreType
      Assortment := setAssortmentCategories (renameAssortment r.Assortment)
      CompetitionDistance := ratTrunc (r.CompetitionDistance.getD 200000)
      CompetitionOpenSinceMonth :=
        ratTrunc (r.CompetitionOpenSinceMonth.getD (r.Date.m : ℚ))
      CompetitionOpenSinceYear :=
        ratTrunc (r.CompetitionOpenSinceYear.getD (r.Date.y : ℚ))
      Promo2SinceWeek := ratTrunc (r.Promo2SinceWeek.getD ((isoWeek r.Date : Int) : ℚ))
      Promo2SinceYear := ratTrunc (r.Promo2SinceYear.getD (r.Date.y : ℚ))
      PromoInterval := r.PromoInterval.getD "none"
    }
  else .error .dateParse

/-- `cat.rename_categories` requires the renamed category set to stay
unique; pandas raises `ValueError` otherwise.  The categories of a column
`astype("category")` are its distinct values. -/
def renamingKeepsDistinct (rename : String → String) (values : List String) : Bool :=
  (values.dedup.map rename).Nodup

/-- The column-wise part of `_data_cleaning` applied after the filter of
line 79. -/
def clean_columns (rows : List RawRow) : Except PErr (List CleanRow) :=
  if renamingKeepsDistinct renameStateHoliday (rows.map RawRow.StateHoliday)
      && renamingKeepsDistinct renameAssortment (rows.map RawRow.Assortment) then
    mapExcept cleanRow rows
  else .error .duplicateCategories

/-- `_data_cleaning`: filter out closed stores (line 79), then clean the
surviving rows column by column. -/
def data_cleaning (rows : List RawRow) : Except PErr (List CleanRow) :=
  clean_columns (rows.filter openEq1)

/-! ## Stage 2: `_feature_engineering` (Rossmann.py lines 143-180) -/

/-- The month_map of line 173. -/
def monthAbbrev (m : Int) : String :=
  if m = 1 then "Jan" else if m = 2 then "Feb" else if m = 3 then "Mar"
  else if m = 4 then "Apr" else if m = 5 then "May" else if m = 6 then "Jun"
  else if m = 7 then "Jul" else if m = 8 then "Aug" else if m = 9 then "Sep"
  else if m = 10 then "Oct" else if m = 11 then "Nov" else if m = 12 then "Dec"
  else ""

/-- Whether `n` is an initial segment of `l`. -/
def charsLead : List Char → List Char → Bool
  | [], _ => true
  | _ :: _, [] => false
  | a :: as, b :: bs => a == b && charsLead as bs

/-- Whether `n` occurs contiguously somewhere in `l`. -/
def charsSegment (n : List Char) : List Char → Bool
  | [] => n.isEmpty
  | b :: bs => charsLead n (b :: bs) || charsSegment n bs

/-- The Python substring test `x in s` used by the IsPromo lambda of
line 175. -/
def strContains (hay needle : String) : Bool :=
  charsSegment needle.data hay.data

/-- Line 164: `pd.to_datetime(str(year) + "-" + str(month) + "-01")`.
The free-form parser accepts a four-digit year and a month 1..12 and yields
the first day of that month; other inputs fail (years outside four digits
would be re-windowed or rejected by `dateutil`, which no claim exercises,
so they are folded into the error case). -/
def competitionSinceRD (y m : Int) : Except PErr Int :=
  if 1000 ≤ y ∧ y ≤ 9999 ∧ 1 ≤ m ∧ m ≤ 12 then .ok (daysFromCivil y m 1)
  else .error .competitionSinceParse

/-- Line 169: `pd.to_datetime(str(year) + "-" + str(week) + "-1",
format="%Y-%W-%w")`.  This is CPython / pandas `strptime` semantics for the
`%W` directive (Monday-started weeks, the days before the first Monday of
the year forming week 0): the `%W` regex accepts only 0..53, `%Y` requires
a four-digit year, and the day-of-week `1` is Monday.  Week `w >= 1` lands
on `firstMonday + 7*(w-1)`; week 0 borrows from the previous year exactly
as `_strptime._calc_julian_from_U_or_W` does.  Note this is NOT the
ISO-8601 week numbering used by `isocalendar`. -/
def strptimeWMondayRD (y w : Int) : Except PErr Int :=
  if 1000 ≤ y ∧ y ≤ 9999 ∧ 0 ≤ w ∧ w ≤ 53 then
    let jan1 := daysFromCivil y 1 1
    let firstWeekday := weekdayMon0 jan1
    if w = 0 then
      let julian := 1 - firstWeekday
      if julian ≤ 0 then
        .ok (daysFromCivil (y - 1) 1 1 + (julian + daysInYear (y - 1)) - 1)
      else .ok (jan1 + julian - 1)
    else
      let week0len := (7 - firstWeekday) % 7
      .ok (jan1 + week0len + 7 * (w - 1))
  else .error .promoSinceParse

/-- Feature engineering of a single row: the date components of lines
158-161, the competition features of lines 164-165, the promo features of
lines 168-170 and the IsPromo flag of lines 173-175; the auxiliary columns
are dropped (line 178). -/
def featRow (c : CleanRow) : Except PErr FeatRow :=
  match competitionSinceRD c.CompetitionOpenSinceYear c.CompetitionOpenSinceMonth with
  | .error e => .error e
  | .ok compSince =>
    match strptimeWMondayRD c.Promo2SinceYear c.Promo2SinceWeek with
    | .error e => .error e
    | .ok promoMonday =>
      let promoSince := promoMonday - 7
      .ok {
        Store := c.Store
        DayOfWeek := c.DayOfWeek
        Date := c.Date
        Promo := c.Promo
        SchoolHoliday := c.SchoolHoliday
        Promo2 := c.Promo2
        StateHoliday := c.StateHoliday
        StoreType := c.StoreType
        Assortment := c.Assortment
        CompetitionDistance := c.CompetitionDistance
        CompetitionOpenSinceMonth := c.CompetitionOpenSinceMonth
        CompetitionOpenSinceYear := c.CompetitionOpenSinceYear
        Promo2SinceWeek := c.Promo2SinceWeek
        Promo2SinceYear := c.Promo2SinceYear
        Year := c.Date.y
        Month := c.Date.m
        Day := c.Date.d
        WeekOfYear := isoWeek c.Date
        CompetitionTimeMonth := Int.tdiv (c.Date.toRD - compSince) 30
        PromoTimeWeek := Int.tdiv (c.Date.toRD - promoSince) 7
        IsPromo :=
          if c.PromoInterval ≠ "none" ∧ strContains c.PromoInterval (monthAbbrev c.Date.m)
          then 1 else 0
      }

/-- `_feature_engineering`.  On an empty batch the row-wise
`DataFrame.apply(..., axis=1)` of line 175 returns an empty `DataFrame`
(the IsPromo lambda raises `TypeError` on the all-NaN probe row pandas
feeds it, so pandas cannot infer a reduced shape), and the assignment
`df["IsPromo"] = <DataFrame>` raises `ValueError`; a non-empty batch is
mapped row by row. -/
def feature_engineering (rows : List CleanRow) : Except PErr (List FeatRow) :=
  if rows.isEmpty then .error .emptyApply
  else mapExcept featRow rows

/-! ## Stage 3: `_data_preparation` (Rossmann.py lines 182-224) -/

/-- The assortmentDict ordinal mapping of line 209; `Series.map` sends a
value with no dictionary entry (or NaN) to NaN. -/
def assortmentDict : String → Option Int
  | "basic" => some 1
  | "extra" => some 2
  | "extended" => some 3
  | _ => none

/-- The category list the one-hot expansion of line 205 actually encodes
over: the distinct StateHoliday values present in this very batch (the
column was made categorical from the batch data at line 102, then
renamed).  `pd.get_dummies` emits one column per category. -/
def stateHolidayCats (rows : List FeatRow) : List String :=
  (rows.map FeatRow.StateHoliday).dedup

/-- Name of the one-hot column for a StateHoliday label (line 205 passes
`prefix=["StateHoliday"]`, and pandas joins with an underscore). -/
def shCol (label : String) : String := "StateHoliday_" ++ label

/-- A prepared row is the pandas row of the frame returned by
`_data_preparation`, restricted to its numeric columns, keyed by column
name. -/
abbrev PrepRow := List (String × ℚ)

/-- One row of `_data_preparation`: the rescaling of lines 197-202, the
one-hot expansion of line 205 (columns appended after the base columns),
the label encoding of line 207, the ordinal Assortment mapping plus
`astype(int)` of lines 209-211 (which raises if any value is NaN), and the
cyclical features of lines 215-222 (appended last, as they are assigned
after `get_dummies`).  The Date column of the frame is not listed: it is
not numeric and, being excluded from `features_for_model` by construction,
can never be selected. -/
def prepRow (R : Rossmann) (cats : List String) (f : FeatRow) : Except PErr PrepRow :=
  match R.store_type_encoder f.StoreType with
  | none => .error .unseenStoreType
  | some st =>
    match f.Assortment.bind assortmentDict with
    | none => .error .naToInt
    | some asn =>
      .ok ([("Store", (f.Store : ℚ)),
            ("DayOfWeek", (f.DayOfWeek : ℚ)),
            ("Promo", (f.Promo : ℚ)),
            ("SchoolHoliday", (f.SchoolHoliday : ℚ)),
            ("StoreType", (st : ℚ)),
            ("Assortment", (asn : ℚ)),
            ("CompetitionDistance",
              R.competition_distance_scaler (f.CompetitionDistance : ℚ)),
            ("CompetitionOpenSinceMonth", (f.CompetitionOpenSinceMonth : ℚ)),
            ("CompetitionOpenSinceYear",
              R.year_scaler (f.CompetitionOpenSinceYear : ℚ)),
            ("Promo2", (f.Promo2 : ℚ)),
            ("Promo2SinceWeek", (f.Promo2SinceWeek : ℚ)),
            ("Promo2SinceYear", R.year_scaler (f.Promo2SinceYear : ℚ)),
            ("Year", R.year_scaler (f.Year : ℚ)),
            ("Month", (f.Month : ℚ)),
            ("Day", (f.Day : ℚ)),
            ("WeekOfYear", (f.WeekOfYear : ℚ)),
            ("CompetitionTimeMonth",
              R.competition_time_month_scaler (f.CompetitionTimeMonth : ℚ)),
            ("PromoTimeWeek", R.promo_time_week_scaler (f.PromoTimeWeek : ℚ)),
            ("IsPromo", (f.IsPromo : ℚ))]
           ++ cats.map (fun l => (shCol l, if f.StateHoliday = l then (1 : ℚ) else 0))
           ++ [("DayOfWeekSin", R.sinPi ((f.DayOfWeek : ℚ) * 2 / 7)),
               ("DayOfWeekCos", R.cosPi ((f.DayOfWeek : ℚ) * 2 / 7)),
               ("MonthSin", R.sinPi ((f.Month : ℚ) * 2 / 12)),
               ("MonthCos", R.cosPi ((f.Month : ℚ) * 2 / 12)),
               ("DaySin", R.sinPi ((f.Day : ℚ) * 2 / 30)),
               ("DayCos", R.cosPi ((f.Day : ℚ) * 2 / 30)),
               ("WeekOfYearSin", R.sinPi ((f.WeekOfYear : ℚ) * 2 / 52)),
               ("WeekOfYearCos", R.cosPi ((f.WeekOfYear : ℚ) * 2 / 52))])

/-- `_data_preparation`: one-hot categories are computed from the batch,
then every row is transformed. -/
def data_preparation (R : Rossmann) (rows : List FeatRow) : Except PErr (List PrepRow) :=
  mapExcept (prepRow R (stateHolidayCats rows)) rows

/-! ## `preprocess`, `get_prediction` and the request flow -/

/-- Line 60: `[col for col in self.features_selected if col not in
["Date", "Sales"]]`. -/
def featuresForModel (features_selected : List String) : List String :=
  features_selected.filter (fun c => ¬ (c = "Date" ∨ c = "Sales"))

/-- Line 61: `df[features_for_model]` on one row — project onto the listed
columns in the listed order; a listed column missing from the frame raises
`KeyError`. -/
def selectCols (cols : List String) (row : PrepRow) : Except PErr PrepRow :=
  mapExcept
    (fun c =>
      match row.lookup c with
      | some v => .ok (c, v)
      | none => .error (.keyError c))
    cols

/-- `Rossmann.preprocess` (lines 42-61): cleaning, feature engineering,
preparation, then projection onto the selected features. -/
def preprocess (R : Rossmann) (rows : List RawRow) : Except PErr (List PrepRow) :=
  match data_cleaning rows with
  | .error e => .error e
  | .ok c =>
    match feature_engineering c with
    | .error e => .error e
    | .ok f =>
      match data_preparation R f with
      | .error e => .error e
      | .ok p => mapExcept (selectCols (featuresForModel R.features_selected)) p

/-- `Rossmann.get_prediction` (lines 226-243): run the model on the
prepared matrix, append `expm1` of the raw output as a Prediction column,
and serialize record-wise (`to_json(orient="records")` keeps the row
order, one record per row).  Assigning the raw vector back requires its
length to match the row count. -/
def get_prediction (R : Rossmann) (test_data : List PrepRow) : Except PErr (List PrepRow) :=
  let pred := R.predict (test_data.map (fun row => row.map Prod.snd))
  if pred.length = test_data.length then
    .ok (List.zipWith (fun row v => row ++ [("Prediction", R.expm1 v)]) test_data pred)
  else .error .lengthMismatch

/-- The request flow of `handler.rossmann_predict` lines 105-107:
`preprocess` then `get_prediction`; the returned records are the body of
the HTTP response. -/
def api_pipeline (R : Rossmann) (rows : List RawRow) : Except PErr (List PrepRow) :=
  match preprocess R rows with
  | .error e => .error e
  | .ok prepared => get_prediction R prepared

/-! ## Spec-side definitions used to compare against the code -/

/-- Modelled from the spec: "PromoSince = the Monday of ISO week
Promo2SinceWeek of year Promo2SinceYear" (§4.4); the Monday of ISO week 1
of year `y` is the Monday of the week containing January 4. -/
def isoWeekMondaySpec (y w : Int) : Int :=
  let j4 := daysFromCivil y 1 4
  (j4 - weekdayMon0 j4) + 7 * (w - 1)

/-- Modelled from the spec: the canonical StateHoliday labels of the fixed
dictionary (§4.3), i.e. the "canonical label [set] of the fitted schema"
the one-hot columns are claimed to range over. -/
def canonicalStateHolidayLabels : List String :=
  ["public", "easter", "christmas", "none"]

/-! ## Concrete fixtures (used by witnesses and counterexamples) -/

/-- A concrete bundle of fitted objects: identity scalers, a total label
encoder, a constant model, simple stand-ins for the transcendentals.  The
claims under test quantify over the fitted objects, so any concrete bundle
serves for evaluation. -/
def concreteFitted : Rossmann := {
  competition_distance_scaler := fun q => q
  competition_time_month_scaler := fun q => q
  promo_time_week_scaler := fun q => q
  year_scaler := fun q => q
  store_type_encoder := fun _ => some 1
  features_selected := ["Store", "DayOfWeek", "Date", "CompetitionDistance"]
  predict := fun m => m.map (fun _ => (1 : ℚ))
  expm1 := fun q => q
  sinPi := fun _ => 0
  cosPi := fun _ => 0 }

/-- A fully populated open-store record. -/
def rowOpen : RawRow := {
  Store := 1, DayOfWeek := 5, Date := ⟨2015, 7, 10⟩, Open := some 1,
  Promo := 1, StateHoliday := "0", SchoolHoliday := 0, StoreType := "a",
  Assortment := "a", CompetitionDistance := some 1270,
  CompetitionOpenSinceMonth := some 9, CompetitionOpenSinceYear := some 2008,
  Promo2 := 0, Promo2SinceWeek := some 14, Promo2SinceYear := some 2011,
  PromoInterval := some "Jan,Apr,Jul,Oct" }

/-- A second open-store record with different identifying values. -/
def rowOpenB : RawRow :=
  { rowOpen with Store := 7, DayOfWeek := 6, Date := ⟨2015, 7, 11⟩,
                 CompetitionDistance := some 310 }

/-- A closed-store record. -/
def rowClosed : RawRow := { rowOpen with Store := 3, Open := some 0 }

/-- An open record whose StateHoliday code is outside the documented
domain. -/
def rowUnknownHoliday : RawRow := { rowOpen with StateHoliday := "x" }

/-- An open record with every nullable field missing, for the imputation
claim. -/
def rowAllMissing : RawRow :=
  { rowOpen with
      CompetitionDistance := none, CompetitionOpenSinceMonth := none,
      CompetitionOpenSinceYear := none, Promo2SinceWeek := none,
      Promo2SinceYear := none, PromoInterval := none }

/-- The fraction 54247/10 (i.e. 5424.7), built directly in lowest terms so
that concrete evaluation never runs the (irreducible) rational
arithmetic. -/
def q5424p7 : ℚ := ⟨54247, 10, by decide, by decide⟩

/-- An open record with a fractional competition distance, for the
truncation claim. -/
def rowFractional : RawRow :=
  { rowOpen with CompetitionDistance := some q5424p7 }

/-- A cleaned row whose promo-2 start is week 1 of 2015 (a year whose
January 1 falls on a Thursday, where %W and ISO week numbering differ). -/
def cleanW1 : CleanRow := {
  Store := 1, DayOfWeek := 1, Date := ⟨2015, 1, 5⟩, Promo := 0,
  SchoolHoliday := 0, Promo2 := 1, StateHoliday := "none", StoreType := "a",
  Assortment := some "basic", CompetitionDistance := 100,
  CompetitionOpenSinceMonth := 1, CompetitionOpenSinceYear := 2014,
  Promo2SinceWeek := 1, Promo2SinceYear := 2015, PromoInterval := "none" }

/-- A cleaned row observed before its promo-2 start (negative promo age). -/
def cleanFuturePromo : CleanRow :=
  { cleanW1 with Date := ⟨2015, 1, 1⟩, Promo2SinceWeek := 3 }

/-- A cleaned row observed before its competition opening (negative
competition age). -/
def cleanFutureComp : CleanRow :=
  { cleanW1 with Date := ⟨2015, 1, 1⟩, CompetitionOpenSinceMonth := 3,
                 CompetitionOpenSinceYear := 2015 }

/-- An engineered row whose StateHoliday is the canonical label "none". -/
def featNone : FeatRow := {
  Store := 1, DayOfWeek := 1, Date := ⟨2015, 1, 5⟩, Promo := 0,
  SchoolHoliday := 0, Promo2 := 0, StateHoliday := "none", StoreType := "a",
  Assortment := some "basic", CompetitionDistance := 100,
  CompetitionOpenSinceMonth := 1, CompetitionOpenSinceYear := 2014,
  Promo2SinceWeek := 1, Promo2SinceYear := 2015, Year := 2015, Month := 1,
  Day := 5, WeekOfYear := 2, CompetitionTimeMonth := 11, PromoTimeWeek := 53,
  IsPromo := 0 }

/-- An engineered row on a public holiday. -/
def featPublic : FeatRow := { featNone with StateHoliday := "public" }

/-! ## Inversion lemmas for the pipeline stages -/

theorem mapExcept_ok_mem_img {f : α → Except PErr β} {l : List α} {out : List β}
    (h : mapExcept f l = .ok out) :
    ∀ a ∈ l, ∃ b ∈ out, f a = .ok b := by
  induction l generalizing out with
  | nil => simp
  | cons x as ih =>
    simp only [mapExcept] at h
    cases hfa : f x with
    | error e => rw [hfa] at h; exact absurd h (by simp)
    | ok b =>
      rw [hfa] at h
      cases hrest : mapExcept f as with
      | error e => rw [hrest] at h; exact absurd h (by simp)
      | ok bs =>
        rw [hrest] at h
        simp only [Except.ok.injEq] at h
        subst h
        intro a ha
        rcases List.mem_cons.mp ha with rfl | ha
        · exact ⟨b, List.mem_cons_self _ _, hfa⟩
        · obtain ⟨b', hb', hfb'⟩ := ih hrest a ha
          exact ⟨b', List.mem_cons_of_mem _ hb', hfb'⟩

theorem cleanRow_ok_fields {r : RawRow} {c : CleanRow} (h : cleanRow r = .ok c) :
    r.Date.valid = true ∧
    c.Date = r.Date ∧
    c.Store = r.Store ∧
    c.DayOfWeek = r.DayOfWeek ∧
    c.StateHoliday = renameStateHoliday r.StateHoliday ∧
    c.Assortment = setAssortmentCategories (renameAssortment r.Assortment) ∧
    c.CompetitionDistance = ratTrunc (r.CompetitionDistance.getD 200000) ∧
    c.CompetitionOpenSinceMonth = ratTrunc (r.CompetitionOpenSinceMonth.getD (r.Date.m : ℚ)) ∧
    c.CompetitionOpenSinceYear = ratTrunc (r.CompetitionOpenSinceYear.getD (r.Date.y : ℚ)) ∧
    c.Promo2SinceWeek = ratTrunc (r.Promo2SinceWeek.getD ((isoWeek r.Date : Int) : ℚ)) ∧
    c.Promo2SinceYear = ratTrunc (r.Promo2SinceYear.getD (r.Date.y : ℚ)) ∧
    c.PromoInterval = r.PromoInterval.getD "none" := by
  unfold cleanRow at h
  split at h
  · next hvalid =>
    injection h with h
    subst h
    refine ⟨hvalid, ?_⟩
    repeat' constructor
  · exact absurd h (by simp)

theorem featRow_ok_fields {c : CleanRow} {f : FeatRow} (h : featRow c = .ok f) :
    f.Assortment = c.Assortment ∧
    f.StateHoliday = c.StateHoliday ∧
    f.Date = c.Date ∧
    f.Store = c.Store ∧
    f.DayOfWeek = c.DayOfWeek := by
  unfold featRow at h
  cases hcs : competitionSinceRD c.CompetitionOpenSinceYear c.CompetitionOpenSinceMonth with
  | error e => rw [hcs] at h; exact absurd h (by simp)
  | ok compSince =>
    rw [hcs] at h
    cases hps : strptimeWMondayRD c.Promo2SinceYear c.Promo2SinceWeek with
    | error e => rw [hps] at h; exact absurd h (by simp)
    | ok promoMonday =>
      rw [hps] at h
      simp only [Except.ok.injEq] at h
      subst h
      exact ⟨rfl, rfl, rfl, rfl, rfl⟩

theorem featRow_ok_ages {c : CleanRow} {f : FeatRow} (h : featRow c = .ok f) :
    ∃ compSince promoMonday,
      competitionSinceRD c.CompetitionOpenSinceYear c.CompetitionOpenSinceMonth
        = .ok compSince ∧
      strptimeWMondayRD c.Promo2SinceYear c.Promo2SinceWeek = .ok promoMonday ∧
      f.CompetitionTimeMonth = Int.tdiv (c.Date.toRD - compSince) 30 ∧
      f.PromoTimeWeek = Int.tdiv (c.Date.toRD - (promoMonday - 7)) 7 := by
  unfold featRow at h
  cases hcs : competitionSinceRD c.CompetitionOpenSinceYear c.CompetitionOpenSinceMonth with
  | error e => rw [hcs] at h; exact absurd h (by simp)
  | ok compSince =>
    rw [hcs] at h
    cases hps : strptimeWMondayRD c.Promo2SinceYear c.Promo2SinceWeek with
    | error e => rw [hps] at h; exact absurd h (by simp)
    | ok promoMonday =>
      rw [hps] at h
      simp only [Except.ok.injEq] at h
      subst h
      exact ⟨compSince, promoMonday, rfl, rfl, rfl, rfl⟩

theorem prepRow_ok_assortment {R : Rossmann} {cats : List String} {f : FeatRow}
    {pr : PrepRow} (h : prepRow R cats f = .ok pr) :
    ∃ a, f.Assortment.bind assortmentDict = some a := by
  unfold prepRow at h
  cases hst : R.store_type_encoder f.StoreType with
  | none => rw [hst] at h; exact absurd h (by simp)
  | some st =>
    rw [hst] at h
    cases hasn : f.Assortment.bind assortmentDict with
    | none => rw [hasn] at h; exact absurd h (by simp)
    | some asn => exact ⟨asn, rfl⟩

theorem prepRow_ok_cols {R : Rossmann} {cats : List String} {f : FeatRow}
    {pr : PrepRow} (h : prepRow R cats f = .ok pr) :
    pr.map Prod.fst =
      ["Store", "DayOfWeek", "Promo", "SchoolHoliday", "StoreType", "Assortment",
       "CompetitionDistance", "CompetitionOpenSinceMonth", "CompetitionOpenSinceYear",
       "Promo2", "Promo2SinceWeek", "Promo2SinceYear", "Year", "Month", "Day",
       "WeekOfYear", "CompetitionTimeMonth", "PromoTimeWeek", "IsPromo"]
      ++ cats.map shCol
      ++ ["DayOfWeekSin", "DayOfWeekCos", "MonthSin", "MonthCos", "DaySin",
          "DayCos", "WeekOfYearSin", "WeekOfYearCos"] := by
  unfold prepRow at h
  cases hst : R.store_type_encoder f.StoreType with
  | none => rw [hst] at h; exact absurd h (by simp)
  | some st =>
    rw [hst] at h
    cases hasn : f.Assortment.bind assortmentDict with
    | none => rw [hasn] at h; exact absurd h (by simp)
    | some asn =>
      rw [hasn] at h
      simp only [Except.ok.injEq] at h
      subst h
      simp [List.map_append, List.map_map]

theorem clean_columns_ok_inv {rows : List RawRow} {c : List CleanRow}
    (h : clean_columns rows = .ok c) : mapExcept cleanRow rows = .ok c := by
  unfold clean_columns at h
  split at h
  · exact h
  · exact absurd h (by simp)

theorem feature_engineering_ok_inv {c : List CleanRow} {f : List FeatRow}
    (h : feature_engineering c = .ok f) :
    c ≠ [] ∧ mapExcept featRow c = .ok f := by
  unfold feature_engineering at h
  split at h
  · exact absurd h (by simp)
  · next hne => exact ⟨by simpa [List.isEmpty_iff] using hne, h⟩

theorem preprocess_ok_inv {R : Rossmann} {rows : List RawRow} {out : List PrepRow}
    (h : preprocess R rows = .ok out) :
    ∃ c f p,
      data_cleaning rows = .ok c ∧
      feature_engineering c = .ok f ∧
      data_preparation R f = .ok p ∧
      mapExcept (selectCols (featuresForModel R.features_selected)) p = .ok out := by
  unfold preprocess at h
  split at h
  · exact absurd h (by simp)
  · next c hc =>
    split at h
    · exact absurd h (by simp)
    · next f hf =>
      split at h
      · exact absurd h (by simp)
      · next p hp => exact ⟨c, f, p, hc, hf, hp, h⟩

theorem api_pipeline_ok_inv {R : Rossmann} {rows : List RawRow} {out : List PrepRow}
    (h : api_pipeline R rows = .ok out) :
    ∃ prepared, preprocess R rows = .ok prepared ∧ get_prediction R prepared = .ok out := by
  unfold api_pipeline at h
  split at h
  · exact absurd h (by simp)
  · next prepared hp => exact ⟨prepared, hp, h⟩

theorem get_prediction_ok_inv {R : Rossmann} {td out : List PrepRow}
    (h : get_prediction R td = .ok out) :
    (R.predict (td.map (fun row => row.map Prod.snd))).length = td.length ∧
    out = List.zipWith (fun row v => row ++ [("Prediction", R.expm1 v)]) td
            (R.predict (td.map (fun row => row.map Prod.snd))) := by
  simp only [get_prediction] at h
  split at h
  · next hlen => exact ⟨hlen, by injection h with h; exact h.symm⟩
  · exact absurd h (by simp)

theorem selectCols_ok_fst {cols : List String} {row out : PrepRow}
    (h : selectCols cols row = .ok out) : out.map Prod.fst = cols := by
  induction cols generalizing out with
  | nil =>
    simp only [selectCols, mapExcept] at h
    injection h with h
    simp [← h]
  | cons c cs ih =>
    simp only [selectCols, mapExcept] at h
    cases hl : row.lookup c with
    | none => rw [hl] at h; exact absurd h (by simp)
    | some v =>
      rw [hl] at h
      cases hrest : mapExcept
          (fun c => match row.lookup c with
                    | some v => Except.ok (c, v)
                    | none => Except.error (PErr.keyError c)) cs with
      | error e => rw [hrest] at h; exact absurd h (by simp)
      | ok tail =>
        rw [hrest] at h
        simp only [Except.ok.injEq] at h
        subst h
        have := ih hrest
        simp [this]

/-- C1 (counterexample): a batch whose only row carries the StateHoliday
code "x", outside the documented dictionary, is processed to completion by
the full request pipeline: no error of any kind is raised and a non-empty
prediction output is produced, so no `UnknownCategoryCode` failure exists. -/
theorem C1_counterexample :
    rowUnknownHoliday.StateHoliday = "x" ∧
    ("x" ∈ ["a", "b", "c", "0"]) = False ∧
    api_pipeline concreteFitted [rowUnknownHoliday] =
      .ok [[("Store", 1), ("DayOfWeek", 5), ("CompetitionDistance", 1270),
            ("Prediction", 1)]] := by
  refine ⟨rfl, by simp, by decide⟩

/-- C1 (amended): the pipeline defines no `UnknownCategoryCode` error.  An
Assortment code outside the recognized set does abort the run — but only
because the unrecognized value becomes NaN at the fixed-category step and
the later `astype(int)` raises — so a successful run implies every
surviving row's renamed Assortment lies in the fixed category list;
whereas an unknown StateHoliday code is passed through the renaming
unchanged and flows on into the one-hot encoding with no error at all. -/
theorem C1_theorem :
    (∀ (R : Rossmann) (rows : List RawRow) (out : List PrepRow),
        api_pipeline R rows = .ok out →
        ∀ r ∈ rows.filter openEq1,
          renameAssortment r.Assortment ∈ assortmentCategories) ∧
    (∀ s : String, s ∉ ["a", "b", "c", "0"] → renameStateHoliday s = s) := by
  constructor
  · intro R rows out h r hr
    obtain ⟨prepared, hpre, hgp⟩ := api_pipeline_ok_inv h
    obtain ⟨c, f, p, hc, hf, hp, hsel⟩ := preprocess_ok_inv hpre
    have hmc : mapExcept cleanRow (rows.filter openEq1) = .ok c :=
      clean_columns_ok_inv hc
    obtain ⟨cr, hcrmem, hcr⟩ := mapExcept_ok_mem_img hmc r hr
    obtain ⟨hne, hmf⟩ := feature_engineering_ok_inv hf
    obtain ⟨fr, hfrmem, hfr⟩ := mapExcept_ok_mem_img hmf cr hcrmem
    have hmp : mapExcept (prepRow R (stateHolidayCats f)) f = .ok p := hp
    obtain ⟨pr, hprmem, hpr⟩ := mapExcept_ok_mem_img hmp fr hfrmem
    obtain ⟨a, ha⟩ := prepRow_ok_assortment hpr
    have h1 := (featRow_ok_fields hfr).1
    have h2 := (cleanRow_ok_fields hcr).2.2.2.2.2.1
    rw [h1, h2] at ha
    unfold setAssortmentCategories at ha
    by_cases hmem : renameAssortment r.Assortment ∈ assortmentCategories
    · exact hmem
    · rw [if_neg hmem] at ha
      simp at ha
  · intro s hs
    simp only [List.mem_cons, List.not_mem_nil, or_false, not_or] at hs
    obtain ⟨h1, h2, h3, h4⟩ := hs
    simp [renameStateHoliday, h1, h2, h3, h4]

/-- Witness for C1: a concrete successful run of the full pipeline (so the
success hypothesis of the amended claim is satisfiable), and the
pass-through of a concrete unknown StateHoliday code. -/
theorem C1_witness :
    renameAssortment rowOpen.Assortment ∈ assortmentCategories ∧
    renameStateHoliday "x" = "x" := by
  constructor
  · exact C1_theorem.1 concreteFitted [rowOpen]
      [[("Store", 1), ("DayOfWeek", 5), ("CompetitionDistance", 1270),
        ("Prediction", 1)]]
      (by decide) rowOpen (by decide)
  · exact C1_theorem.2 "x" (by decide)

theorem mem_zipWith_ex {f : α → β → γ} :
    ∀ {as : List α} {bs : List β} {c : γ},
      c ∈ List.zipWith f as bs → ∃ a b, a ∈ as ∧ b ∈ bs ∧ c = f a b := by
  intro as
  induction as with
  | nil => intro bs c hc; simp at hc
  | cons a as ih =>
    intro bs c hc
    cases bs with
    | nil => simp at hc
    | cons b bs =>
      simp only [List.zipWith, List.mem_cons] at hc
      rcases hc with rfl | hc
      · exact ⟨a, b, List.mem_cons_self _ _, List.mem_cons_self _ _, rfl⟩
      · obtain ⟨a', b', ha', hb', rfl⟩ := ih hc
        exact ⟨a', b', List.mem_cons_of_mem _ ha', List.mem_cons_of_mem _ hb', rfl⟩

theorem mapExcept_ok_mem_rev {f : α → Except PErr β} {l : List α} {out : List β}
    (h : mapExcept f l = .ok out) :
    ∀ b ∈ out, ∃ a ∈ l, f a = .ok b := by
  induction l generalizing out with
  | nil =>
    simp only [mapExcept] at h
    injection h with h
    subst h
    simp
  | cons x as ih =>
    simp only [mapExcept] at h
    cases hfa : f x with
    | error e => rw [hfa] at h; exact absurd h (by simp)
    | ok b0 =>
      rw [hfa] at h
      cases hrest : mapExcept f as with
      | error e => rw [hrest] at h; exact absurd h (by simp)
      | ok bs =>
        rw [hrest] at h
        simp only [Except.ok.injEq] at h
        subst h
        intro b hb
        rcases List.mem_cons.mp hb with rfl | hb
        · exact ⟨x, List.mem_cons_self _ _, hfa⟩
        · obtain ⟨a, ha, hfaa⟩ := ih hrest b hb
          exact ⟨a, List.mem_cons_of_mem _ ha, hfaa⟩

/-- C2: contrary to the claim (and to the docstrings of `get_prediction`
and `rossmann_predict`), every record returned by the pipeline consists of
exactly the selected model features plus Prediction — `preprocess` strips
`Date` out of `features_selected` before projecting, and `get_prediction`
serializes that projected frame directly, with no join back onto the
identifying columns of the filtered batch — so no output record can ever
contain a Date field, whatever `features_selected` lists. -/
theorem C2_theorem (R : Rossmann) (rows : List RawRow) (out : List PrepRow)
    (h : api_pipeline R rows = .ok out) :
    ∀ rec ∈ out,
      rec.map Prod.fst = featuresForModel R.features_selected ++ ["Prediction"] ∧
      "Date" ∉ rec.map Prod.fst := by
  intro rec hrec
  obtain ⟨prepared, hpre, hgp⟩ := api_pipeline_ok_inv h
  obtain ⟨c, f, p, hc, hf, hp, hsel⟩ := preprocess_ok_inv hpre
  obtain ⟨hlen, hout⟩ := get_prediction_ok_inv hgp
  subst hout
  obtain ⟨row, v, hrow, hv, rfl⟩ := mem_zipWith_ex hrec
  obtain ⟨prow, hprow, hpsel⟩ := mapExcept_ok_mem_rev hsel row hrow
  have hfst : row.map Prod.fst = featuresForModel R.features_selected :=
    selectCols_ok_fst hpsel
  constructor
  · simp [hfst]
  · intro hmem
    simp only [List.map_append, List.map_cons, List.map_nil, hfst,
      List.mem_append, List.mem_cons, List.not_mem_nil] at hmem
    rcases hmem with hmem | hmem
    · simp [featuresForModel, List.mem_filter] at hmem
    · simp at hmem

/-- Witness for C2: a concrete run whose `features_selected` explicitly
lists Date, yet the output record's fields are the selected features minus
Date, plus Prediction. -/
theorem C2_witness :
    ([("Store", (1 : ℚ)), ("DayOfWeek", 5), ("CompetitionDistance", 1270),
      ("Prediction", 1)] : PrepRow).map Prod.fst =
        featuresForModel concreteFitted.features_selected ++ ["Prediction"] ∧
    "Date" ∉ ([("Store", (1 : ℚ)), ("DayOfWeek", 5), ("CompetitionDistance", 1270),
      ("Prediction", 1)] : PrepRow).map Prod.fst :=
  C2_theorem concreteFitted [rowOpen]
    [[("Store", 1), ("DayOfWeek", 5), ("CompetitionDistance", 1270), ("Prediction", 1)]]
    (by decide) _ (by decide)

/-- C4: an all-closed batch (no row with Open = 1) does NOT flow through as
an empty result: the pipeline aborts with an error, because on the empty
filtered frame the row-wise `DataFrame.apply` of the IsPromo step returns a
`DataFrame` whose assignment to a single column raises `ValueError` (and
the fitted scaler transforms likewise reject zero-sample arrays), so the
claimed empty-batch tolerance fails in `_feature_engineering`. -/
theorem C4_theorem (R : Rossmann) (rows : List RawRow)
    (h : ∀ r ∈ rows, r.Open ≠ some 1) :
    api_pipeline R rows = .error PErr.emptyApply := by
  have hfil : rows.filter openEq1 = [] := by
    rw [List.filter_eq_nil_iff]
    intro r hr
    simp only [openEq1, beq_iff_eq]
    exact h r hr
  unfold api_pipeline preprocess data_cleaning
  rw [hfil]
  rfl

/-- Witness for C4: the concrete single-row closed batch aborts with the
empty-frame apply error. -/
theorem C4_witness :
    api_pipeline concreteFitted [rowClosed] = .error PErr.emptyApply :=
  C4_theorem concreteFitted [rowClosed] (by decide)

/-! ## C5 / C6: the promo-2 and competition age features -/

/-- The engineered row for the week-1 fixture, extracted from the pipeline. -/
def featW1 : FeatRow := (featRow cleanW1).toOption.getD featNone

/-- The engineered row for the future-promo fixture. -/
def featFuturePromo : FeatRow := (featRow cleanFuturePromo).toOption.getD featNone

/-- The engineered row for the future-competition fixture. -/
def featFutureComp : FeatRow := (featRow cleanFutureComp).toOption.getD featNone

/-- C5 (counterexample): the claim fails twice over.  (i) The code parses
the promo start with the `%W` directive, not ISO week numbering: for week 1
of 2015 the `%W` Monday is 2015-01-05 while the ISO week-1 Monday is
2014-12-29, so on the week-1 fixture the code's PromoTimeWeek (= 1)
differs from the claimed floor((Date - (isoMonday - 7days))/7) (= 2).
(ii) The conversion `astype(int)` truncates toward zero, not floor: on the
future-promo fixture the code yields -1 where flooring the code's own
PromoSince difference yields -2. -/
theorem C5_counterexample :
    (featRow cleanW1 = .ok featW1 ∧
     featW1.PromoTimeWeek = 1 ∧
     Int.fdiv (cleanW1.Date.toRD -
       (isoWeekMondaySpec cleanW1.Promo2SinceYear cleanW1.Promo2SinceWeek - 7)) 7 = 2) ∧
    (featRow cleanFuturePromo = .ok featFuturePromo ∧
     strptimeWMondayRD cleanFuturePromo.Promo2SinceYear cleanFuturePromo.Promo2SinceWeek
       = .ok 16454 ∧
     featFuturePromo.PromoTimeWeek = -1 ∧
     Int.fdiv (cleanFuturePromo.Date.toRD - (16454 - 7)) 7 = -2) := by
  decide

/-- C5 (amended): after imputation, PromoSince is the Monday of week
`Promo2SinceWeek` of year `Promo2SinceYear` in the `%W` numbering — week 1
beginning at the first Monday of the year, i.e. `firstMondayOfYear y +
7*(w-1)` — minus 7 days, and PromoTimeWeek is the integer truncation
toward zero of (Date - PromoSince)/7 days, which agrees with the claimed
floor exactly when Date is not earlier than PromoSince. -/
theorem C5_theorem (c : CleanRow) (f : FeatRow) (pm : Int)
    (h : featRow c = .ok f)
    (hpm : strptimeWMondayRD c.Promo2SinceYear c.Promo2SinceWeek = .ok pm)
    (hw : 1 ≤ c.Promo2SinceWeek) :
    pm = firstMondayOfYear c.Promo2SinceYear + 7 * (c.Promo2SinceWeek - 1) ∧
    f.PromoTimeWeek = Int.tdiv (c.Date.toRD - (pm - 7)) 7 ∧
    (pm - 7 ≤ c.Date.toRD →
      f.PromoTimeWeek = Int.fdiv (c.Date.toRD - (pm - 7)) 7) := by
  obtain ⟨cs, pm', hcs, hpm', hctm, hptw⟩ := featRow_ok_ages h
  have hpmeq : pm' = pm := by
    rw [hpm] at hpm'
    injection hpm' with he
    exact he.symm
  rw [hpmeq] at hptw
  have hmon : pm = firstMondayOfYear c.Promo2SinceYear + 7 * (c.Promo2SinceWeek - 1) := by
    unfold strptimeWMondayRD at hpm
    split at hpm
    · next hbounds =>
      simp only [weekdayMon0] at hpm
      rw [if_neg (by omega)] at hpm
      injection hpm with hpm
      simp only [firstMondayOfYear]
      omega
    · exact absurd hpm (by simp)
  refine ⟨hmon, hptw, fun hle => ?_⟩
  rw [hptw]
  rw [← Int.fdiv_eq_tdiv (by omega) (by omega)]

/-- Witness for C5 (amended), on the week-1 fixture: the `%W` Monday of
week 1 of 2015 is the first Monday of 2015, and both divisions agree there
since the difference is non-negative. -/
theorem C5_witness :
    (16440 : Int) = firstMondayOfYear cleanW1.Promo2SinceYear + 7 * (cleanW1.Promo2SinceWeek - 1) ∧
    featW1.PromoTimeWeek = Int.tdiv (cleanW1.Date.toRD - (16440 - 7)) 7 ∧
    ((16440 : Int) - 7 ≤ cleanW1.Date.toRD →
      featW1.PromoTimeWeek = Int.fdiv (cleanW1.Date.toRD - (16440 - 7)) 7) :=
  C5_theorem cleanW1 featW1 16440 (by decide) (by decide) (by decide)

/-- C6 (counterexample): CompetitionTimeMonth is the truncation toward
zero, not the floor, of (Date - CompetitionSince)/30: a row observed on
2015-01-01 with competition opening 2015-03 gives -59 days, which the code
turns into -1 while the claimed floor is -2. -/
theorem C6_counterexample :
    featRow cleanFutureComp = .ok featFutureComp ∧
    competitionSinceRD 2015 3 = .ok (daysFromCivil 2015 3 1) ∧
    cleanFutureComp.Date.toRD - daysFromCivil 2015 3 1 = -59 ∧
    featFutureComp.CompetitionTimeMonth = -1 ∧
    Int.fdiv (cleanFutureComp.Date.toRD - daysFromCivil 2015 3 1) 30 = -2 := by
  decide

/-- C6 (amended): after imputation, CompetitionSince is the first day of
month (CompetitionOpenSinceYear, CompetitionOpenSinceMonth), and
CompetitionTimeMonth is the integer truncation toward zero of
(Date - CompetitionSince)/30 days, which agrees with the claimed floor
exactly when Date is not earlier than CompetitionSince. -/
theorem C6_theorem (c : CleanRow) (f : FeatRow) (cs : Int)
    (h : featRow c = .ok f)
    (hcs : competitionSinceRD c.CompetitionOpenSinceYear c.CompetitionOpenSinceMonth = .ok cs) :
    cs = daysFromCivil c.CompetitionOpenSinceYear c.CompetitionOpenSinceMonth 1 ∧
    f.CompetitionTimeMonth = Int.tdiv (c.Date.toRD - cs) 30 ∧
    (cs ≤ c.Date.toRD →
      f.CompetitionTimeMonth = Int.fdiv (c.Date.toRD - cs) 30) := by
  obtain ⟨cs', pm', hcs', hpm', hctm, hptw⟩ := featRow_ok_ages h
  have hcseq : cs' = cs := by
    rw [hcs] at hcs'
    injection hcs' with he
    exact he.symm
  rw [hcseq] at hctm
  have hfirst : cs = daysFromCivil c.CompetitionOpenSinceYear c.CompetitionOpenSinceMonth 1 := by
    unfold competitionSinceRD at hcs
    split at hcs
    · injection hcs with hcs
      exact hcs.symm
    · exact absurd hcs (by simp)
  refine ⟨hfirst, hctm, fun hle => ?_⟩
  rw [hctm]
  rw [← Int.fdiv_eq_tdiv (by omega) (by omega)]

/-- Witness for C6 (amended), on the week-1 fixture: competition opened
2014-01, well before the observation date, so truncation and floor agree. -/
theorem C6_witness :
    (daysFromCivil 2014 1 1 : Int) =
      daysFromCivil cleanW1.CompetitionOpenSinceYear cleanW1.CompetitionOpenSinceMonth 1 ∧
    featW1.CompetitionTimeMonth = Int.tdiv (cleanW1.Date.toRD - daysFromCivil 2014 1 1) 30 ∧
    ((daysFromCivil 2014 1 1 : Int) ≤ cleanW1.Date.toRD →
      featW1.CompetitionTimeMonth = Int.fdiv (cleanW1.Date.toRD - daysFromCivil 2014 1 1) 30) :=
  C6_theorem cleanW1 featW1 (daysFromCivil 2014 1 1) (by decide) (by decide)

/-! ## C3: the one-hot expansion of StateHoliday -/

/-- Column names of the first row produced by `_data_preparation` (with the
concrete fitted bundle) on a given batch. -/
def firstRowCols (rows : List FeatRow) : List String :=
  (((data_preparation concreteFitted rows).toOption.getD []).headD []).map Prod.fst

/-- C3 (counterexample): the one-hot columns are inferred from the batch,
not from a fitted schema.  A batch whose only StateHoliday label is "none"
yields no column for the canonical label "public" (instead of the claimed
all-zero column), and a second call on a batch that does contain "public"
returns a different column set, so the encoder's output schema is not
identical across calls. -/
theorem C3_counterexample :
    "public" ∈ canonicalStateHolidayLabels ∧
    shCol "public" ∉ firstRowCols [featNone] ∧
    firstRowCols [featNone] ≠ firstRowCols [featPublic, featNone] := by
  decide

theorem charsLead_self_append : ∀ (a b : List Char), charsLead a (a ++ b) = true := by
  intro a
  induction a with
  | nil => intro b; rfl
  | cons c cs ih =>
    intro b
    simp only [List.cons_append, charsLead, beq_self_eq_true, Bool.true_and,
      List.append_eq, ih]

theorem shCol_data (l : String) :
    (shCol l).data = "StateHoliday_".data ++ l.data := by
  unfold shCol
  exact String.data_append _ _

theorem shCol_inj {a b : String} (h : shCol a = shCol b) : a = b := by
  have hd : (shCol a).data = (shCol b).data := by rw [h]
  rw [shCol_data, shCol_data] at hd
  exact String.ext (List.append_cancel_left hd)

/-- The fixed (non-dummy) column names of a prepared row. -/
def fixedPrepCols : List String :=
  ["Store", "DayOfWeek", "Promo", "SchoolHoliday", "StoreType", "Assortment",
   "CompetitionDistance", "CompetitionOpenSinceMonth", "CompetitionOpenSinceYear",
   "Promo2", "Promo2SinceWeek", "Promo2SinceYear", "Year", "Month", "Day",
   "WeekOfYear", "CompetitionTimeMonth", "PromoTimeWeek", "IsPromo",
   "DayOfWeekSin", "DayOfWeekCos", "MonthSin", "MonthCos", "DaySin",
   "DayCos", "WeekOfYearSin", "WeekOfYearCos"]

theorem shCol_not_fixed (l : String) : ∀ n ∈ fixedPrepCols, shCol l ≠ n := by
  intro n hn heq
  have hlead : charsLead "StateHoliday_".data n.data = true := by
    rw [← heq, shCol_data]
    exact charsLead_self_append _ _
  have : ∀ n ∈ fixedPrepCols, charsLead "StateHoliday_".data n.data = false := by decide
  rw [this n hn] at hlead
  exact absurd hlead (by simp)

/-- C3 (amended): the one-hot expansion emits exactly one
`StateHoliday_<label>` column per distinct StateHoliday label occurring in
the batch at hand; a canonical label absent from the batch yields no
column at all, so the output column set varies with the batch instead of
being fixed by the fitted schema. -/
theorem C3_theorem (R : Rossmann) (rows : List FeatRow) (out : List PrepRow)
    (h : data_preparation R rows = .ok out) :
    ∀ pr ∈ out, ∀ l : String,
      (shCol l ∈ pr.map Prod.fst ↔ l ∈ rows.map FeatRow.StateHoliday) := by
  intro pr hpr l
  obtain ⟨fr, hfr, hok⟩ := mapExcept_ok_mem_rev h pr hpr
  have hcols := prepRow_ok_cols hok
  rw [hcols]
  constructor
  · intro hmem
    rcases List.mem_append.mp hmem with hmem | hcyc
    · rcases List.mem_append.mp hmem with hfix | hdum
      · exact absurd rfl (shCol_not_fixed l _ (by
          simp only [fixedPrepCols]
          revert hfix
          simp only [List.mem_cons, List.not_mem_nil, or_false]
          intro hfix
          rcases hfix with h | h | h | h | h | h | h | h | h | h | h | h | h | h
            | h | h | h | h | h <;> simp [h]))
      · obtain ⟨x, hx, hxeq⟩ := List.mem_map.mp hdum
        have := shCol_inj hxeq
        subst this
        exact List.mem_dedup.mp hx
    · exact absurd rfl (shCol_not_fixed l _ (by
        simp only [fixedPrepCols]
        revert hcyc
        simp only [List.mem_cons, List.not_mem_nil, or_false]
        intro hcyc
        rcases hcyc with h | h | h | h | h | h | h | h <;> simp [h]))
  · intro hmem
    refine List.mem_append.mpr (.inl (List.mem_append.mpr (.inr ?_)))
    exact List.mem_map_of_mem shCol (List.mem_dedup.mpr hmem)

/-- The prepared output of a concrete all-"none" batch. -/
def prepNoneOut : List PrepRow :=
  (data_preparation concreteFitted [featNone]).toOption.getD []

/-- Witness for C3 (amended) on a concrete call: the "none" dummy column is
present exactly because the label occurs in the batch. -/
theorem C3_witness :
    shCol "none" ∈ (prepNoneOut.headD []).map Prod.fst ↔
      "none" ∈ [featNone].map FeatRow.StateHoliday :=
  C3_theorem concreteFitted [featNone] prepNoneOut (by decide)
    (prepNoneOut.headD []) (by decide) "none"

/-! ## C7: filtering, row survival and order preservation -/

/-- The per-row composition of the pipeline stages applied to one
surviving raw row (with the one-hot category list supplied from the
batch), ending at the selected feature row. -/
def row_pipeline (R : Rossmann) (cats : List String) (r : RawRow) : Except PErr PrepRow :=
  match cleanRow r with
  | .error e => .error e
  | .ok c =>
    match featRow c with
    | .error e => .error e
    | .ok f =>
      match prepRow R cats f with
      | .error e => .error e
      | .ok p => selectCols (featuresForModel R.features_selected) p

/-- The one-hot category list a batch gives rise to: the distinct renamed
StateHoliday labels of its surviving rows. -/
def batchCats (rows : List RawRow) : List String :=
  ((rows.filter openEq1).map (fun r => renameStateHoliday r.StateHoliday)).dedup

/-- C7: on a successful run the output has exactly one record per
surviving (Open = 1) input row — rows with Open missing or different from
1 contribute nothing — and the i-th output record is the image of the i-th
surviving input row under the per-row stage composition, with the
Prediction field appended; so the surviving rows are scored in their
original relative order, with no duplication and no reordering. -/
theorem C7_theorem (R : Rossmann) (rows : List RawRow) (out : List PrepRow)
    (h : api_pipeline R rows = .ok out) :
    out.length = (rows.filter openEq1).length ∧
    ∀ i (hi : i < (rows.filter openEq1).length) (ho : i < out.length),
      ∃ sel v,
        row_pipeline R (batchCats rows) ((rows.filter openEq1).get ⟨i, hi⟩) = .ok sel ∧
        out.get ⟨i, ho⟩ = sel ++ [("Prediction", v)] := by
  obtain ⟨prepared, hpre, hgp⟩ := api_pipeline_ok_inv h
  obtain ⟨c, f, p, hc, hf, hp, hsel⟩ := preprocess_ok_inv hpre
  have hmc : mapExcept cleanRow (rows.filter openEq1) = .ok c :=
    clean_columns_ok_inv hc
  obtain ⟨hne, hmf⟩ := feature_engineering_ok_inv hf
  have hmp : mapExcept (prepRow R (stateHolidayCats f)) f = .ok p := hp
  have lc := mapExcept_ok_length hmc
  have lf := mapExcept_ok_length hmf
  have lp := mapExcept_ok_length hmp
  have lsel := mapExcept_ok_length hsel
  obtain ⟨hplen, hout⟩ := get_prediction_ok_inv hgp
  have lout : out.length = (rows.filter openEq1).length := by
    rw [hout, List.length_zipWith]
    omega
  have hcats : stateHolidayCats f = batchCats rows := by
    unfold stateHolidayCats batchCats
    congr 1
    apply List.ext_get (by simp only [List.length_map]; omega)
    intro i h1 h2
    have hif : i < f.length := by simp only [List.length_map] at h1; omega
    have hifil : i < (List.filter openEq1 rows).length := by
      simp only [List.length_map] at h2; omega
    have hic : i < c.length := by omega
    have hcl := mapExcept_ok_get hmc i hifil hic
    have hft := mapExcept_ok_get hmf i hic hif
    simp only [List.get_map]
    rw [(featRow_ok_fields hft).2.1, (cleanRow_ok_fields hcl).2.2.2.2.1]
  refine ⟨lout, ?_⟩
  intro i hi ho
  have hcl := mapExcept_ok_get hmc i hi (by omega)
  have hft := mapExcept_ok_get hmf i (by omega) (by omega)
  have hpp := mapExcept_ok_get hmp i (by omega) (by omega)
  have hss := mapExcept_ok_get hsel i (by omega) (by omega)
  refine ⟨prepared.get ⟨i, by omega⟩,
    R.expm1 ((R.predict (prepared.map (fun row => row.map Prod.snd))).get ⟨i, by omega⟩),
    ?_, ?_⟩
  · unfold row_pipeline
    simp only [hcl, hft, ← hcats, hpp]
    exact hss
  · have hgo := List.get_of_eq hout ⟨i, ho⟩
    rw [hgo, List.get_zipWith]

/-- The three-row scenario batch: two open stores around one closed one. -/
def batch3 : List RawRow := [rowOpen, rowClosed, rowOpenB]

/-- The pipeline output of the three-row scenario. -/
def out3 : List PrepRow := (api_pipeline concreteFitted batch3).toOption.getD []

/-- Witness for C7: on the concrete three-row batch with one closed store
the pipeline succeeds and produces exactly one record per open row. -/
theorem C7_witness : out3.length = (batch3.filter openEq1).length :=
  (C7_theorem concreteFitted batch3 out3 (by decide)).1

/-! ## C8: imputation and integer coercion -/

/-- C8: cleaning fills exactly the documented defaults — CompetitionDistance
with 200000, CompetitionOpenSinceMonth/Year with the row's own observation
month/year, Promo2SinceWeek with the row's own ISO week number,
Promo2SinceYear with the row's own observation year, PromoInterval with
the sentinel "none" — and coerces the five numeric fields to integers by
truncation toward zero (`ratTrunc`), not rounding. -/
theorem C8_theorem (r : RawRow) (c : CleanRow) (h : cleanRow r = .ok c) :
    ((r.CompetitionDistance = none → c.CompetitionDistance = 200000) ∧
     ∀ q, r.CompetitionDistance = some q → c.CompetitionDistance = ratTrunc q) ∧
    ((r.CompetitionOpenSinceMonth = none → c.CompetitionOpenSinceMonth = r.Date.m) ∧
     ∀ q, r.CompetitionOpenSinceMonth = some q → c.CompetitionOpenSinceMonth = ratTrunc q) ∧
    ((r.CompetitionOpenSinceYear = none → c.CompetitionOpenSinceYear = r.Date.y) ∧
     ∀ q, r.CompetitionOpenSinceYear = some q → c.CompetitionOpenSinceYear = ratTrunc q) ∧
    ((r.Promo2SinceWeek = none → c.Promo2SinceWeek = isoWeek r.Date) ∧
     ∀ q, r.Promo2SinceWeek = some q → c.Promo2SinceWeek = ratTrunc q) ∧
    ((r.Promo2SinceYear = none → c.Promo2SinceYear = r.Date.y) ∧
     ∀ q, r.Promo2SinceYear = some q → c.Promo2SinceYear = ratTrunc q) ∧
    ((r.PromoInterval = none → c.PromoInterval = "none") ∧
     ∀ s, r.PromoInterval = some s → c.PromoInterval = s) := by
  obtain ⟨-, -, -, -, -, -, hcd, hcm, hcy, hpw, hpy, hpi⟩ := cleanRow_ok_fields h
  have htrunc_int : ∀ n : Int, ratTrunc (n : ℚ) = n := by
    intro n
    simp [ratTrunc, Rat.num_intCast, Rat.den_intCast, Int.tdiv_one]
  refine ⟨⟨?_, ?_⟩, ⟨?_, ?_⟩, ⟨?_, ?_⟩, ⟨?_, ?_⟩, ⟨?_, ?_⟩, ⟨?_, ?_⟩⟩
  · intro hn; rw [hcd, hn]; rfl
  · intro q hq; rw [hcd, hq]; rfl
  · intro hn; rw [hcm, hn, Option.getD_none, htrunc_int]
  · intro q hq; rw [hcm, hq]; rfl
  · intro hn; rw [hcy, hn, Option.getD_none, htrunc_int]
  · intro q hq; rw [hcy, hq]; rfl
  · intro hn; rw [hpw, hn, Option.getD_none, htrunc_int]
  · intro q hq; rw [hpw, hq]; rfl
  · intro hn; rw [hpy, hn, Option.getD_none, htrunc_int]
  · intro q hq; rw [hpy, hq]; rfl
  · intro hn; rw [hpi, hn]; rfl
  · intro s hs; rw [hpi, hs]; rfl

/-- The cleaned image of the all-missing fixture. -/
def cleanAllMissing : CleanRow := (cleanRow rowAllMissing).toOption.getD cleanW1

/-- The cleaned image of the fractional-distance fixture. -/
def cleanFractional : CleanRow := (cleanRow rowFractional).toOption.getD cleanW1

/-- Witness for C8: the all-missing row receives the documented defaults
(200000, its own 2015-07 month/year, its ISO week 28) — and separately a
fractional distance 5424.7 is truncated to 5424, not rounded to 5425. -/
theorem C8_witness :
    cleanAllMissing.CompetitionDistance = 200000 ∧
    cleanAllMissing.CompetitionOpenSinceMonth = rowAllMissing.Date.m ∧
    cleanAllMissing.CompetitionOpenSinceYear = rowAllMissing.Date.y ∧
    cleanAllMissing.Promo2SinceWeek = isoWeek rowAllMissing.Date ∧
    cleanAllMissing.Promo2SinceYear = rowAllMissing.Date.y ∧
    cleanAllMissing.PromoInterval = "none" ∧
    cleanFractional.CompetitionDistance = ratTrunc q5424p7 ∧
    ratTrunc q5424p7 = 5424 := by
  have hm := C8_theorem rowAllMissing cleanAllMissing (by decide)
  have hf := C8_theorem rowFractional cleanFractional (by decide)
  exact ⟨hm.1.1 rfl, hm.2.1.1 rfl, hm.2.2.1.1 rfl, hm.2.2.2.1.1 rfl,
    hm.2.2.2.2.1.1 rfl, hm.2.2.2.2.2.1 rfl, hf.1.2 q5424p7 rfl, by decide⟩

/-! ## C9: the prediction post-processing -/

/-- C9: `get_prediction` runs the model once on the value matrix of the
selected frame (row order preserved) and appends, per row and in order,
a Prediction field holding `expm1` of that row's raw model output; the
feature fields of each record are exactly those of the corresponding input
row, unchanged. -/
theorem C9_theorem (R : Rossmann) (td out : List PrepRow)
    (h : get_prediction R td = .ok out) :
    (R.predict (td.map (fun row => row.map Prod.snd))).length = td.length ∧
    out.length = td.length ∧
    ∀ i (hi : i < td.length) (ho : i < out.length)
      (hp : i < (R.predict (td.map (fun row => row.map Prod.snd))).length),
      out.get ⟨i, ho⟩ =
        td.get ⟨i, hi⟩ ++
          [("Prediction",
            R.expm1 ((R.predict (td.map (fun row => row.map Prod.snd))).get ⟨i, hp⟩))] := by
  obtain ⟨hlen, hout⟩ := get_prediction_ok_inv h
  refine ⟨hlen, ?_, ?_⟩
  · rw [hout, List.length_zipWith]
    omega
  · intro i hi ho hp
    have hgo := List.get_of_eq hout ⟨i, ho⟩
    rw [hgo, List.get_zipWith]

/-- A one-row prepared frame used to exercise the predictor. -/
def tdSingle : List PrepRow := [[("Store", (1 : ℚ))]]

/-- Witness for C9 on a concrete one-row frame: the output record is the
input row with `expm1` of the raw model output appended. -/
theorem C9_witness :
    ([[("Store", (1 : ℚ)), ("Prediction", 1)]] : List PrepRow).get ⟨0, by decide⟩ =
      tdSingle.get ⟨0, by decide⟩ ++
        [("Prediction",
          concreteFitted.expm1
            ((concreteFitted.predict (tdSingle.map (fun row => row.map Prod.snd))).get
              ⟨0, by decide⟩))] :=
  (C9_theorem concreteFitted tdSingle [[("Store", (1 : ℚ)), ("Prediction", 1)]]
    (by decide)).2.2 0 (by decide) (by decide) (by decide)

/-! ## C10: `preprocess` does not mutate the caller frame

pandas frames are mutable objects, so the claim is about object identity:
which frame object each statement of the source writes to.  The heap model
below makes that explicit: a heap is a list of frame values, a reference is
an index, allocation appends, and an in-place pandas operation overwrites
one slot.  Each heap step is annotated with the source line it models; the
frame values themselves are computed by the stage functions verified
above. -/

/-- A frame object living on the heap, at any stage of processing. -/
inductive FrameV where
  | raw (rows : List RawRow)
  | clean (rows : List CleanRow)
  | feat (rows : List FeatRow)
  | prep (rows : List PrepRow)
deriving DecidableEq, Repr

/-- A heap of frame objects; references are indices. -/
abbrev Heap := List FrameV

/-- Dereference. -/
def hget (h : Heap) (r : Nat) : Option FrameV := h[r]?

/-- Allocation: append a fresh object, return its reference. -/
def halloc (h : Heap) (v : FrameV) : Heap × Nat := (h ++ [v], h.length)

/-- In-place mutation of the object at an existing reference. -/
def hwrite (h : Heap) (r : Nat) (v : FrameV) : Heap := h.set r v

/-- `Rossmann.preprocess` on the heap, following the object flow of the
source statement by statement:
line 56 `df.copy()` allocates; line 79 `df[df["Open"] == 1].copy()`
allocates again; the remaining column assignments of `_data_cleaning`
(lines 82-140) and all of `_feature_engineering` (lines 158-178, including
the `inplace=True` drop) mutate that second allocation in place;
`_data_preparation` writes scaled columns in place and then `get_dummies`
(line 205) allocates the frame the cyclical columns are written into; and
the projection `df[features_for_model]` (line 61) allocates the result.
The caller's frame at `r` is only ever read. -/
def preprocess_heap (R : Rossmann) (h0 : Heap) (r : Nat) : Except PErr (Heap × Nat) :=
  match hget h0 r with
  | some (FrameV.raw rows) =>
    let a1 := halloc h0 (FrameV.raw rows)
    let rowsF := rows.filter openEq1
    let a2 := halloc a1.1 (FrameV.raw rowsF)
    match clean_columns rowsF with
    | .error e => .error e
    | .ok c =>
      let h3 := hwrite a2.1 a2.2 (FrameV.clean c)
      match feature_engineering c with
      | .error e => .error e
      | .ok f =>
        let h4 := hwrite h3 a2.2 (FrameV.feat f)
        match data_preparation R f with
        | .error e => .error e
        | .ok p =>
          let a3 := halloc h4 (FrameV.prep p)
          match mapExcept (selectCols (featuresForModel R.features_selected)) p with
          | .error e => .error e
          | .ok sel =>
            let a4 := halloc a3.1 (FrameV.prep sel)
            .ok (a4.1, a4.2)
  | _ => .error .badRef

theorem hget_halloc_lt {h : Heap} {v : FrameV} {r : Nat} (hr : r < h.length) :
    hget (halloc h v).1 r = hget h r := by
  unfold hget halloc
  exact List.getElem?_append_left hr

theorem hget_hwrite_ne {h : Heap} {w r : Nat} {v : FrameV} (hne : w ≠ r) :
    hget (hwrite h w v) r = hget h r := by
  unfold hget hwrite
  exact List.getElem?_set_ne hne

/-- C10: a successful `preprocess` leaves the caller's frame untouched —
the heap slot of the argument reference holds the very same value
afterwards, and the returned frame is a different object. -/
theorem C10_theorem (R : Rossmann) (h0 h1 : Heap) (r r1 : Nat)
    (hok : preprocess_heap R h0 r = .ok (h1, r1)) :
    hget h1 r = hget h0 r ∧ r1 ≠ r := by
  unfold preprocess_heap at hok
  cases hv : hget h0 r with
  | none => rw [hv] at hok; exact absurd hok (by simp)
  | some fv =>
    rw [hv] at hok
    have hr : r < h0.length := by
      by_contra hge
      rw [hget, List.getElem?_eq_none (by omega)] at hv
      exact Option.noConfusion hv
    cases fv with
    | clean _ => exact absurd hok (by simp)
    | feat _ => exact absurd hok (by simp)
    | prep _ => exact absurd hok (by simp)
    | raw rows =>
      simp only at hok
      split at hok
      · exact absurd hok (by simp)
      · next c hc =>
        split at hok
        · exact absurd hok (by simp)
        · next f hf =>
          split at hok
          · exact absurd hok (by simp)
          · next p hp =>
            split at hok
            · exact absurd hok (by simp)
            · next sel hsel =>
              simp only [Except.ok.injEq, Prod.mk.injEq] at hok
              obtain ⟨hh1, hr1⟩ := hok
              subst hh1
              constructor
              · rw [hget_halloc_lt (by
                    simp only [halloc, hwrite, List.length_append, List.length_set]
                    omega),
                  hget_halloc_lt (by
                    simp only [halloc, hwrite, List.length_append, List.length_set]
                    omega),
                  hget_hwrite_ne (by simp only [halloc, List.length_append]; omega),
                  hget_hwrite_ne (by simp only [halloc, List.length_append]; omega),
                  hget_halloc_lt (by simp only [halloc, List.length_append]; omega),
                  hget_halloc_lt hr]
                exact hv
              · subst hr1
                simp only [halloc, hwrite, List.length_append, List.length_set]
                omega

/-- A concrete heap holding one raw frame. -/
def heap0 : Heap := [FrameV.raw [rowOpen]]

/-- The concrete result of the heap-level preprocess. -/
def heapRes : Heap × Nat :=
  (preprocess_heap concreteFitted heap0 0).toOption.getD ([], 0)

/-- Witness for C10 on the concrete heap: the caller slot is unchanged and
the result is a fresh reference. -/
theorem C10_witness : hget heapRes.1 0 = hget heap0 0 ∧ heapRes.2 ≠ 0 :=
  C10_theorem concreteFitted heap0 heapRes.1 0 heapRes.2 (by decide)
